import Mathlib

/-!
Verification of the mvp-buildkit deliberation/commit pipeline.

Shallow embedding of the Python sources under `src/agentic_mvp_factory/`:
pure functions become Lean functions; database and filesystem effects become
explicit state passing over association lists; external collaborators
(model calls, git subprocesses, the YAML parser) become oracle parameters.
Each section names the source file and lines it embeds.
-/

namespace MvpBuildkit

/-! ## Python string primitives -/

/-- Contiguous-sublist test on character lists. -/
def listIsInfix (p : List Char) : List Char → Bool
  | [] => p.isEmpty
  | c :: rest => p.isPrefixOf (c :: rest) || listIsInfix p rest

/-- Python `p in s` on strings: substring containment (empty `p` always matches). -/
def pyIn (pattern s : String) : Bool :=
  listIsInfix pattern.data s.data

/-- Python `s.strip()`: drop leading and trailing whitespace (space, tab, CR,
LF — the whitespace occurring in this repository's data). -/
def pyStrip (s : String) : String :=
  ⟨((s.data.dropWhile Char.isWhitespace).reverse.dropWhile
      Char.isWhitespace).reverse⟩

/-- Python `"\n".join(lines)`. -/
def joinLines : List String → String
  | [] => ""
  | [x] => x
  | x :: y :: rest => x ++ "\n" ++ joinLines (y :: rest)

/-! ## Dependency Law Engine — `artifact_deps.py`

Embeds `FORBIDDEN_INPUT_PATTERNS` (lines 85-96), `TASK_SPECIFIC_FORBIDDEN`
(lines 100-109), `ALLOWED_INPUTS_BY_TASK_TYPE` (lines 54-79),
`_is_forbidden_pattern` (lines 112-133) and `validate_allowed_inputs`
(lines 136-180).  Python dicts become lookup functions; the input mapping
becomes an association list in insertion order. -/

def FORBIDDEN_INPUT_PATTERNS : List String :=
  ["phase_0/", "context_pack", ".cursor/rules/",
   "prompts/step_template", "prompts/review_template",
   "prompts/patch_template", "prompts/chair_synthesis"]

def TASK_SPECIFIC_FORBIDDEN (taskType : String) : List String :=
  if taskType = "invariants" then ["plan"]
  else if taskType = "tracker" then ["plan", "phase_minus_1/"]
  else if taskType = "prompts" then ["plan", "phase_minus_1/"]
  else if taskType = "cursor_rules" then ["plan", "tracker", "phase_minus_1/"]
  else []

def ALLOWED_INPUTS_BY_TASK_TYPE (taskType : String) : Option (List String) :=
  if taskType = "spec" then some ["plan"]
  else if taskType = "invariants" then some ["spec"]
  else if taskType = "tracker" then some ["spec", "invariants"]
  else if taskType = "prompts" then some ["spec", "invariants", "tracker"]
  else if taskType = "cursor_rules" then some ["spec", "invariants"]
  else none

/-- `_is_forbidden_pattern(input_name, task_type)`: a global pattern matches by
substring containment; a task-specific pattern by substring containment or
exact equality (the disjunct `input_name == pattern` is redundant). -/
def isForbiddenPattern (inputName taskType : String) : Bool :=
  FORBIDDEN_INPUT_PATTERNS.any (fun p => pyIn p inputName) ||
  (TASK_SPECIFIC_FORBIDDEN taskType).any
    (fun p => pyIn p inputName || inputName == p)

/-- The violation string (if any) recorded for one `(input_name, source)` pair,
following the two branches of the loop body in `validate_allowed_inputs`. -/
def violationFor (taskType : String) (allowed : List String)
    (inputName source : String) : Option String :=
  if isForbiddenPattern inputName taskType then
    some ("FORBIDDEN: '" ++ inputName ++ "' violates dependency chain for "
      ++ taskType ++ " (source: " ++ source ++ ")")
  else if !allowed.contains inputName then
    some ("NOT ALLOWED for " ++ taskType ++ ": '" ++ inputName ++ "' (source: "
      ++ source ++ "). Allowed inputs: " ++ String.intercalate ", " allowed)
  else
    none

/-- The violations list accumulated over the inputs, in iteration order. -/
def collectViolations (taskType : String) (allowed : List String) :
    List (String × String) → List String
  | [] => []
  | (n, src) :: rest =>
    match violationFor taskType allowed n src with
    | some v => v :: collectViolations taskType allowed rest
    | none => collectViolations taskType allowed rest

/-- The `ValueError` message: header lines followed by one line per violation. -/
def renderViolationError (taskType : String) (violations : List String) : String :=
  joinLines
    (["Artifact Dependency Violation in " ++ taskType ++ " council:",
      "  Found " ++ toString violations.length ++ " illegal input(s):"] ++
     violations.map (fun v => "    - " ++ v))

/-- `validate_allowed_inputs(task_type, inputs)`: `.error msg` models the raised
`ValueError`, `.ok ()` the silent return. -/
def validate_allowed_inputs (taskType : String) (inputs : List (String × String)) :
    Except String Unit :=
  match ALLOWED_INPUTS_BY_TASK_TYPE taskType with
  | none => .error ("Unknown task type for dependency validation: " ++ taskType)
  | some allowed =>
    let violations := collectViolations taskType allowed inputs
    if violations.isEmpty then .ok ()
    else .error (renderViolationError taskType violations)

/-! Supporting lemmas for the Dependency Law theorems. -/

theorem listIsInfix_eq_true_iff {p : List Char} :
    ∀ {l : List Char}, listIsInfix p l = true ↔ p <:+: l := by
  intro l
  induction l with
  | nil =>
    simp [listIsInfix, List.isEmpty_iff]
  | cons c rest ih =>
    simp only [listIsInfix, Bool.or_eq_true, List.isPrefixOf_iff_prefix, ih,
      List.infix_cons_iff]

theorem pyIn_eq_true_iff {n s : String} : pyIn n s = true ↔ n.data <:+: s.data := by
  simp [pyIn, listIsInfix_eq_true_iff]

theorem pyIn_of_append_left (n s t : String) :
    pyIn n s = true → pyIn n (s ++ t) = true := by
  intro h
  rw [pyIn_eq_true_iff] at h ⊢
  rw [String.data_append]
  exact h.trans ⟨[], t.data, by simp⟩

theorem pyIn_of_append_right (n s t : String) :
    pyIn n t = true → pyIn n (s ++ t) = true := by
  intro h
  rw [pyIn_eq_true_iff] at h ⊢
  rw [String.data_append]
  obtain ⟨u, v, huv⟩ := h
  exact ⟨s.data ++ u, v, by simp [← huv, List.append_assoc]⟩

theorem pyIn_refl (s : String) : pyIn s s = true := by
  rw [pyIn_eq_true_iff]

/-- A member string is a substring of the joined lines. -/
theorem pyIn_joinLines {v : String} : ∀ {l : List String}, v ∈ l →
    pyIn v (joinLines l) = true := by
  intro l
  induction l with
  | nil => intro h; cases h
  | cons x rest ih =>
    intro h
    cases rest with
    | nil =>
      simp only [List.mem_singleton] at h
      subst h
      simpa [joinLines] using pyIn_refl v
    | cons y rest' =>
      have hj : joinLines (x :: y :: rest') = x ++ "\n" ++ joinLines (y :: rest') := rfl
      rw [hj]
      rcases List.mem_cons.mp h with h1 | h2
      · subst h1
        exact pyIn_of_append_left _ _ _ (pyIn_of_append_left _ _ _ (pyIn_refl v))
      · exact pyIn_of_append_right _ _ _ (ih h2)

theorem pyIn_trans {a b c : String} (h1 : pyIn a b = true) (h2 : pyIn b c = true) :
    pyIn a c = true := by
  rw [pyIn_eq_true_iff] at h1 h2 ⊢
  exact h1.trans h2

/-- A recorded violation string always contains the offending input name. -/
theorem pyIn_of_violationFor {t : String} {allowed : List String} {n src v : String}
    (h : violationFor t allowed n src = some v) : pyIn n v = true := by
  unfold violationFor at h
  split at h
  · simp only [Option.some.injEq] at h
    subst h
    exact pyIn_of_append_left _ _ _ (pyIn_of_append_left _ _ _
      (pyIn_of_append_left _ _ _ (pyIn_of_append_left _ _ _
        (pyIn_of_append_left _ _ _ (pyIn_of_append_right _ _ _ (pyIn_refl n))))))
  · split at h
    · simp only [Option.some.injEq] at h
      subst h
      exact pyIn_of_append_left _ _ _ (pyIn_of_append_left _ _ _
        (pyIn_of_append_left _ _ _ (pyIn_of_append_left _ _ _
          (pyIn_of_append_right _ _ _ (pyIn_refl n)))))
    · cases h

theorem violationFor_eq_none_iff {t : String} {allowed : List String} {n src : String} :
    violationFor t allowed n src = none ↔
      (isForbiddenPattern n t = false ∧ allowed.contains n = true) := by
  unfold violationFor
  by_cases hf : isForbiddenPattern n t = true
  · simp [hf]
  · by_cases hc : allowed.contains n = true
    · simp [hf, hc]
    · simp [hf, hc]

theorem collectViolations_eq_nil_iff {t : String} {allowed : List String} :
    ∀ {inputs : List (String × String)},
      collectViolations t allowed inputs = [] ↔
        ∀ p ∈ inputs, violationFor t allowed p.1 p.2 = none := by
  intro inputs
  induction inputs with
  | nil => simp [collectViolations]
  | cons q rest ih =>
    obtain ⟨n, src⟩ := q
    simp only [collectViolations]
    cases hv : violationFor t allowed n src with
    | some v =>
      simp only [List.forall_mem_cons]
      constructor
      · intro h; cases h
      · rintro ⟨h1, _⟩; rw [hv] at h1; cases h1
    | none =>
      simp only [List.forall_mem_cons, ih]
      constructor
      · intro h; exact ⟨hv, h⟩
      · rintro ⟨_, h⟩; exact h

/-- An offending input yields a violation string, containing its name, in the
collected violations list. -/
theorem exists_violation_of_offending {t : String} {allowed : List String} :
    ∀ {inputs : List (String × String)} {p : String × String}, p ∈ inputs →
      violationFor t allowed p.1 p.2 ≠ none →
      ∃ v ∈ collectViolations t allowed inputs, pyIn p.1 v = true := by
  intro inputs
  induction inputs with
  | nil => intro p hp; cases hp
  | cons q rest ih =>
    intro p hp hoff
    obtain ⟨n, src⟩ := q
    rcases List.mem_cons.mp hp with h1 | h2
    · subst h1
      cases hv : violationFor t allowed n src with
      | none => exact absurd hv hoff
      | some v =>
        refine ⟨v, ?_, pyIn_of_violationFor hv⟩
        simp only [collectViolations, hv]
        exact List.mem_cons_self _ _
    · obtain ⟨v, hv, hin⟩ := ih h2 hoff
      refine ⟨v, ?_, hin⟩
      simp only [collectViolations]
      cases violationFor t allowed n src with
      | some w => exact List.mem_cons_of_mem _ hv
      | none => exact hv

/-- Each violation string is a substring of the rendered error message. -/
theorem pyIn_renderViolationError {t : String} {violations : List String} {v : String}
    (hv : v ∈ violations) (n : String) (hn : pyIn n v = true) :
    pyIn n (renderViolationError t violations) = true := by
  have hline : ("    - " ++ v) ∈
      (["Artifact Dependency Violation in " ++ t ++ " council:",
        "  Found " ++ toString violations.length ++ " illegal input(s):"] ++
       violations.map (fun w => "    - " ++ w)) := by
    refine List.mem_append_right _ ?_
    exact List.mem_map_of_mem _ hv
  have h2 : pyIn n ("    - " ++ v) = true := pyIn_of_append_right _ _ _ hn
  exact pyIn_trans h2 (pyIn_joinLines hline)

/-- **C3.** For the five Phase 2 task types, `validate_allowed_inputs(T, I)`
raises exactly when some input name matches a forbidden pattern (global or
task-specific) or lies outside T's allow-set, and the raised message contains
every offending input name.  The embedding is a pure function, matching the
source, which reads only module constants and mutates nothing. -/
theorem validate_allowed_inputs_spec
    (taskType : String) (allowed : List String)
    (hT : ALLOWED_INPUTS_BY_TASK_TYPE taskType = some allowed)
    (inputs : List (String × String)) :
    ((∃ e, validate_allowed_inputs taskType inputs = .error e) ↔
      ∃ p ∈ inputs, isForbiddenPattern p.1 taskType = true ∨
        allowed.contains p.1 = false)
    ∧ (∀ e, validate_allowed_inputs taskType inputs = .error e →
        ∀ p ∈ inputs,
          (isForbiddenPattern p.1 taskType = true ∨ allowed.contains p.1 = false) →
          pyIn p.1 e = true) := by
  have hoff : ∀ p : String × String,
      (violationFor taskType allowed p.1 p.2 ≠ none ↔
        (isForbiddenPattern p.1 taskType = true ∨ allowed.contains p.1 = false)) := by
    intro p
    rw [Ne, violationFor_eq_none_iff]
    constructor
    · intro h
      by_cases hf : isForbiddenPattern p.1 taskType = true
      · exact Or.inl hf
      · rw [Bool.not_eq_true] at hf
        refine Or.inr ?_
        by_cases hc : allowed.contains p.1 = true
        · exact absurd ⟨hf, hc⟩ h
        · rwa [Bool.not_eq_true] at hc
    · rintro (hf | hc) ⟨h1, h2⟩
      · rw [hf] at h1; cases h1
      · rw [hc] at h2; cases h2
  constructor
  · constructor
    · rintro ⟨e, he⟩
      unfold validate_allowed_inputs at he
      rw [hT] at he
      by_cases hnil : collectViolations taskType allowed inputs = []
      · simp [hnil] at he
      · rw [collectViolations_eq_nil_iff] at hnil
        push_neg at hnil
        obtain ⟨p, hp, hv⟩ := hnil
        exact ⟨p, hp, (hoff p).mp hv⟩
    · rintro ⟨p, hp, hcase⟩
      have hv : violationFor taskType allowed p.1 p.2 ≠ none := (hoff p).mpr hcase
      have hnil : collectViolations taskType allowed inputs ≠ [] := by
        intro h
        exact hv (collectViolations_eq_nil_iff.mp h p hp)
      refine ⟨renderViolationError taskType (collectViolations taskType allowed inputs), ?_⟩
      unfold validate_allowed_inputs
      rw [hT]
      simp only [List.isEmpty_iff, hnil, if_false]
  · intro e he p hp hcase
    have hv : violationFor taskType allowed p.1 p.2 ≠ none := (hoff p).mpr hcase
    obtain ⟨v, hvm, hin⟩ := exists_violation_of_offending hp hv
    unfold validate_allowed_inputs at he
    rw [hT] at he
    by_cases hnil : collectViolations taskType allowed inputs = []
    · simp [hnil] at he
    · simp only [List.isEmpty_iff, hnil, if_false, Except.error.injEq] at he
      subst he
      exact pyIn_renderViolationError hvm _ hin

/-- **C3 witness**: the tracker council rejects a direct `plan` input, and the
error message names it. -/
theorem validate_allowed_inputs_spec_witness :
    (∃ e, validate_allowed_inputs "tracker" [("plan", "kind=plan")] = .error e) ∧
    (∀ e, validate_allowed_inputs "tracker" [("plan", "kind=plan")] = .error e →
      pyIn "plan" e = true) := by
  have h := validate_allowed_inputs_spec "tracker" ["spec", "invariants"] rfl
    [("plan", "kind=plan")]
  refine ⟨h.1.mpr ⟨("plan", "kind=plan"), by simp, Or.inl (by decide)⟩, ?_⟩
  intro e he
  exact h.2 e he ("plan", "kind=plan") (by simp) (Or.inl (by decide))

/-- **C9.** Forbidden-pattern matching is substring containment: any input name
containing a global forbidden pattern, or one of the task type's specific
forbidden patterns, as a substring causes `validate_allowed_inputs` to raise
(for unknown task types the unknown-task error is raised instead, still a
raise). -/
theorem forbidden_pattern_substring_raises
    (taskType s src : String)
    (h : (∃ p ∈ FORBIDDEN_INPUT_PATTERNS, pyIn p s = true) ∨
         (∃ p ∈ TASK_SPECIFIC_FORBIDDEN taskType, pyIn p s = true)) :
    ∃ e, validate_allowed_inputs taskType [(s, src)] = .error e := by
  have hforb : isForbiddenPattern s taskType = true := by
    unfold isForbiddenPattern
    rcases h with ⟨p, hp, hin⟩ | ⟨p, hp, hin⟩
    · refine Bool.or_eq_true_iff.mpr (Or.inl ?_)
      exact List.any_eq_true.mpr ⟨p, hp, hin⟩
    · refine Bool.or_eq_true_iff.mpr (Or.inr ?_)
      exact List.any_eq_true.mpr ⟨p, hp, Bool.or_eq_true_iff.mpr (Or.inl hin)⟩
  cases hT : ALLOWED_INPUTS_BY_TASK_TYPE taskType with
  | none =>
    refine ⟨"Unknown task type for dependency validation: " ++ taskType, ?_⟩
    unfold validate_allowed_inputs
    rw [hT]
  | some allowed =>
    exact (validate_allowed_inputs_spec taskType allowed hT [(s, src)]).1.mpr
      ⟨(s, src), by simp, Or.inl hforb⟩

/-- **C9 witness**: `"notes_on_context_pack_v2"` is not a named forbidden file,
yet the spec council rejects it because it contains `"context_pack"`; likewise
`"my_plan_v2"` for the invariants council via the task-specific `"plan"`. -/
theorem forbidden_pattern_substring_raises_witness :
    (∃ e, validate_allowed_inputs "spec"
      [("notes_on_context_pack_v2", "test")] = .error e) ∧
    (∃ e, validate_allowed_inputs "invariants"
      [("my_plan_v2", "test")] = .error e) := by
  constructor
  · exact forbidden_pattern_substring_raises "spec" _ _
      (Or.inl ⟨"context_pack", by decide, by decide⟩)
  · exact forbidden_pattern_substring_raises "invariants" _ _
      (Or.inr ⟨"plan", by decide, by decide⟩)

/-! ## Plan council workflow — `graph.py`

Embeds `_generate_single_draft` (lines 80-151), `_generate_single_critique`
(lines 153-226), `draft_generate` (lines 287-342), `critique_generate`
(lines 345-403) and the unconditional `draft_generate -> critique_generate`
edge of `build_council_graph` (lines 577-604).  Participant calls
(`traced_complete`) become an oracle `String -> Except String String`
(model id to produced text or a raised error's message); the database
becomes an explicit `CouncilWorld`.  The parallel fan-out (`as_completed`)
is linearized in submission order; every property stated below is
independent of the completion order. -/

structure CArtifact where
  kind : String
  content : String
  model : Option String
deriving Repr, DecidableEq

structure CouncilWorld where
  runStatus : String
  artifacts : List CArtifact
  calls : List (String × String)
deriving Repr, DecidableEq

structure PlanState where
  runId : String
  models : List String
  packetContent : String
  phase : String
  error : Option String
  draftCount : Nat
  critiqueCount : Nat
  failedModels : List String
deriving Repr, DecidableEq

/-- `write_artifact` on the council world (append-only log). -/
def councilWriteArtifact (w : CouncilWorld) (kind content : String)
    (model : Option String) : CouncilWorld :=
  { w with artifacts := w.artifacts ++ [⟨kind, content, model⟩] }

/-- `_generate_single_draft`: records the participant invocation, then either a
`draft` artifact (success) or an `error` artifact (failure).  Returns
`(model, success flag, error message)` as the tuple the node collects. -/
def generateSingleDraft (draftResult : String → Except String String)
    (model _packetContent : String) (w : CouncilWorld) :
    (String × Bool × Option String) × CouncilWorld :=
  let w := { w with calls := w.calls ++ [("draft", model)] }
  match draftResult model with
  | .ok content => ((model, true, none), councilWriteArtifact w "draft" content (some model))
  | .error e =>
      ((model, false, some e),
        councilWriteArtifact w "error"
          ("Draft generation failed for " ++ model ++ ": " ++ e) (some model))

/-- `_generate_single_critique`: same shape with a `critique` artifact. -/
def generateSingleCritique (critiqueResult : String → Except String String)
    (model _draftsText : String) (w : CouncilWorld) :
    (String × Bool × Option String) × CouncilWorld :=
  let w := { w with calls := w.calls ++ [("critique", model)] }
  match critiqueResult model with
  | .ok content =>
      ((model, true, none), councilWriteArtifact w "critique" content (some model))
  | .error e =>
      ((model, false, some e),
        councilWriteArtifact w "error"
          ("Critique generation failed for " ++ model ++ ": " ++ e) (some model))

/-- The draft fan-out loop: one linearization of the `as_completed` collection,
returning (number of successful drafts, failed models) and the updated world. -/
def draftFanOut (draftResult : String → Except String String)
    (packetContent : String) :
    List String → CouncilWorld → (Nat × List String) × CouncilWorld
  | [], w => ((0, []), w)
  | m :: rest, w =>
    let (r, w1) := generateSingleDraft draftResult m packetContent w
    let ((cnt, failed), w2) := draftFanOut draftResult packetContent rest w1
    if r.2.1 then ((cnt + 1, failed), w2) else ((cnt, r.1 :: failed), w2)

/-- `draft_generate` (graph node).  On fewer than 2 successful drafts it sets
the run status to `"failed"` and returns a failed state. -/
def draft_generate (draftResult : String → Except String String)
    (st : PlanState) (w : CouncilWorld) : PlanState × CouncilWorld :=
  if st.runId = "" || st.models.isEmpty || st.packetContent = "" then
    ({ st with
        phase := "failed",
        error := some "Missing required state: run_id, models, or packet_content" }, w)
  else
    let w := { w with runStatus := "drafting" }
    let ((cnt, failed), w) := draftFanOut draftResult st.packetContent st.models w
    if cnt < 2 then
      ({ st with
          phase := "failed",
          error := some ("Only " ++ toString cnt ++
            " draft(s) succeeded. Need at least 2. Failed: " ++ toString failed),
          draftCount := cnt, failedModels := failed },
       { w with runStatus := "failed" })
    else
      ({ st with phase := "drafting", draftCount := cnt, failedModels := failed }, w)

/-- Python `f"{model}"` on an optional model id (`None` prints as `"None"`). -/
def optModelStr (o : Option String) : String := o.getD "None"

/-- The `drafts_text` accumulation of `critique_generate` (lines 375-377). -/
def formatDrafts : Nat → List CArtifact → String
  | _, [] => ""
  | i, d :: rest =>
    "\n## Draft " ++ toString i ++ " (from " ++ optModelStr d.model ++ ")\n\n"
      ++ d.content ++ "\n\n---\n" ++ formatDrafts (i + 1) rest

/-- The critique fan-out loop with the `model not in failed_models` dedup. -/
def critiqueFanOut (critiqueResult : String → Except String String)
    (draftsText : String) :
    List String → List String → CouncilWorld → (Nat × List String) × CouncilWorld
  | [], failed, w => ((0, failed), w)
  | m :: rest, failed, w =>
    let (r, w1) := generateSingleCritique critiqueResult m draftsText w
    if r.2.1 then
      let ((cnt, failed'), w2) := critiqueFanOut critiqueResult draftsText rest failed w1
      ((cnt + 1, failed'), w2)
    else
      let failed1 := if failed.contains r.1 then failed else failed ++ [r.1]
      critiqueFanOut critiqueResult draftsText rest failed1 w1

/-- `critique_generate` (graph node).  Note: it sets the run status to
`"critiquing"` before looking at the drafts, and nothing in it consults the
previous node's outcome. -/
def critique_generate (critiqueResult : String → Except String String)
    (st : PlanState) (w : CouncilWorld) : PlanState × CouncilWorld :=
  if st.runId = "" || st.models.isEmpty then
    ({ st with
        phase := "failed",
        error := some "Missing required state: run_id or models" }, w)
  else
    let w := { w with runStatus := "critiquing" }
    let drafts := w.artifacts.filter (fun a => a.kind == "draft")
    if drafts.isEmpty then
      ({ st with phase := "failed", error := some "No drafts to critique" }, w)
    else
      let draftsText := formatDrafts 1 drafts
      let ((cnt, failed), w) :=
        critiqueFanOut critiqueResult draftsText st.models st.failedModels w
      ({ st with phase := "critiquing", critiqueCount := cnt, failedModels := failed }, w)

/-- The `build_council_graph` edge `draft_generate -> critique_generate`
(lines 598-600): a plain edge, so the critique node runs regardless of the
draft node's outcome. -/
def draftThenCritique (draftResult critiqueResult : String → Except String String)
    (st : PlanState) (w : CouncilWorld) : PlanState × CouncilWorld :=
  let (st1, w1) := draft_generate draftResult st w
  critique_generate critiqueResult st1 w1

/-- **C1 (bug demonstration).** Plan council, 2 participants, exactly 1 draft
success: `draft_generate` marks the run `"failed"`, but the unconditional
graph edge still runs `critique_generate`, which resets the run status to
`"critiquing"`, invokes both critique participants and writes 2 `critique`
artifacts — contradicting the abort the spec describes. -/
theorem plan_council_draft_gate_bug :
    (let draftO : String → Except String String :=
      fun m => if m = "m1" then .ok "draft one" else .error "timeout"
    let critO : String → Except String String := fun _ => .ok "critique text"
    let st0 : PlanState :=
      { runId := "r1", models := ["m1", "m2"], packetContent := "packet",
        phase := "loading", error := none, draftCount := 0,
        critiqueCount := 0, failedModels := [] }
    let w0 : CouncilWorld := { runStatus := "created", artifacts := [], calls := [] }
    let mid := draft_generate draftO st0 w0
    let fin := draftThenCritique draftO critO st0 w0
    mid.1.phase = "failed" ∧ mid.2.runStatus = "failed" ∧ mid.1.draftCount = 1 ∧
    fin.2.runStatus = "critiquing" ∧
    ("critique", "m1") ∈ fin.2.calls ∧ ("critique", "m2") ∈ fin.2.calls ∧
    (fin.2.artifacts.filter (fun a => a.kind == "critique")).length = 2) := by
  decide

/-! ## Registry and Commit Engine — `repo_writer.py`

Embeds `ArtifactRegistry` (lines 51-70), the lock helpers (lines 200-213),
`_check_existing_files` (lines 262-273), `_generate_stub_content`
(lines 305-509), `commit_outputs` (lines 512-707), the artifact-selection
blocks of `commit_spec_outputs` (lines 744-758) / `commit_tracker_outputs`
(lines 961-975) / the output-only variants (prompts 1191-1195, cursor rules
1443-1447, invariants 1689-1693), and the per-path registry validation loop
shared by the single-artifact commit variants (e.g. lines 814-830).

The target repository filesystem is an association list (path, content);
directories are implicit (only file writes are observable).  Git subprocess
results, the parsed registry, the current timestamp and the sha256 digest
are inputs (external collaborators per the spec).  `dbOk = false` models an
exception raised by the first database call inside the lock-held `try`
body, exercising the `finally` release path. -/

/-- `fnmatch.fnmatch` restricted to `*` and `?` wildcards (character classes
do not occur in this repository's registry patterns). -/
def globMatch (p s : List Char) : Bool :=
  match p, s with
  | [], [] => true
  | [], _ :: _ => false
  | '*' :: prest, [] => globMatch prest []
  | '*' :: prest, c :: srest =>
      globMatch prest (c :: srest) || globMatch ('*' :: prest) srest
  | '?' :: _, [] => false
  | '?' :: prest, _ :: srest => globMatch prest srest
  | _ :: _, [] => false
  | pc :: prest, c :: srest => (pc == c) && globMatch prest srest
termination_by p.length + s.length
decreasing_by all_goals simp_arith

structure ArtifactRegistry where
  canonical : List String
  generated : List String
  forbidden : List String
  source : String
deriving Repr, DecidableEq

/-- `ArtifactRegistry.is_allowed`: canonical membership or a generated glob. -/
def ArtifactRegistry.isAllowed (r : ArtifactRegistry) (path : String) : Bool :=
  r.canonical.contains path || r.generated.any (fun pat => globMatch pat.data path.data)

/-- `ArtifactRegistry.is_forbidden`: exact membership in the forbidden list. -/
def ArtifactRegistry.isForbidden (r : ArtifactRegistry) (path : String) : Bool :=
  r.forbidden.contains path

/-- Target-repository filesystem: association list of (relative path, content). -/
abbrev FS := List (String × String)

def fsExists (fs : FS) (p : String) : Bool := (fs.lookup p).isSome

/-- `write_text`: create or overwrite one file. -/
def fsWrite (fs : FS) (p c : String) : FS :=
  (p, c) :: fs.filter (fun e => e.1 != p)

/-- `unlink`: remove one file. -/
def fsRemove (fs : FS) (p : String) : FS :=
  fs.filter (fun e => e.1 != p)

def LOCK_FILE : String := ".factory-lock"

theorem lookup_fsRemove_self (p : String) :
    ∀ (fs : FS), List.lookup p (fsRemove fs p) = none := by
  intro fs
  induction fs with
  | nil => rfl
  | cons e rest ih =>
    obtain ⟨k, v⟩ := e
    by_cases he : k = p
    · have hb : ((k, v).1 != p) = false := by simp [he]
      simp only [fsRemove, List.filter_cons, hb, Bool.false_eq_true, if_false]
      exact ih
    · have hb : ((k, v).1 != p) = true := by simpa [bne_iff_ne] using he
      simp only [fsRemove, List.filter_cons, hb, if_true]
      have hpk : (p == k) = false := beq_eq_false_iff_ne.mpr (Ne.symm he)
      simp only [List.lookup, hpk]
      exact ih

theorem fsExists_fsRemove_self (fs : FS) (p : String) :
    fsExists (fsRemove fs p) p = false := by
  simp [fsExists, lookup_fsRemove_self]

/-- A run row as far as `commit_outputs` consults it. -/
structure RunRow where
  status : String
deriving Repr, DecidableEq

/-- An artifact row as `commit_*` / `validate_run_outputs` consult it.
`createdAt` mirrors the `created_at` column; `get_artifacts` returns rows in
`created_at` ascending order. -/
structure DbArtifact where
  kind : String
  content : String
  createdAt : Nat
deriving Repr, DecidableEq

/-- `get_artifacts(run_id, kind)` restricted to one run's rows: the SQL filter
by kind.  The input list is the run's artifact log in `created_at` ascending
order (the `ORDER BY created_at ASC`). -/
def getArtifactsByKind (artifacts : List DbArtifact) (kind : String) : List DbArtifact :=
  artifacts.filter (fun a => a.kind == kind)

structure CommitManifest where
  run_id : String
  timestamp : String
  stable_paths_written : List String
  snapshot_path : String
  file_hashes : List (String × String)
deriving Repr, DecidableEq

/-- `CommitManifest.to_json`: same fields and order as the source; whitespace
differs from `json.dumps(indent=2)`. -/
def manifestJson (m : CommitManifest) : String :=
  "\x7b\"run_id\": \"" ++ m.run_id ++ "\", \"timestamp\": \"" ++ m.timestamp
    ++ "\", \"stable_paths_written\": " ++ toString m.stable_paths_written
    ++ ", \"snapshot_path\": \"" ++ m.snapshot_path
    ++ "\", \"file_hashes\": " ++ toString m.file_hashes ++ "\x7d"

/-- `CommitManifest.to_markdown` (lines 178-192). -/
def manifestMarkdown (m : CommitManifest) : String :=
  joinLines
    (["# Commit Manifest", "",
      "**Run ID:** " ++ m.run_id,
      "**Timestamp:** " ++ m.timestamp,
      "**Snapshot Path:** " ++ m.snapshot_path,
      "", "## Files Written", ""] ++
     m.stable_paths_written.map (fun p =>
       "- `" ++ p ++ "` (sha256: " ++
         (((m.file_hashes.lookup p).getD "n/a").take 16) ++ "...)"))

/-- `Path(path).stem`: final component without its last extension. -/
def pathStem (p : String) : String :=
  let name := ((p.splitOn "/").reverse.head?).getD p
  let parts := name.splitOn "."
  if parts.length ≤ 1 then name
  else String.intercalate "." parts.dropLast

/-- `_generate_stub_content(path, synthesis, decision_packet, run_id)`.
`nowIso` stands for the `datetime.now().isoformat()` calls.  Note the
`synthesis` argument is never interpolated by any template in the source. -/
def generateStubContent (path _synthesis decisionPacket runId nowIso : String) : String :=
  if path = "docs/ARTIFACT_REGISTRY.md" then
    "# Artifact Registry\n\n> Auto-generated from council run: " ++ runId ++
    "\n\n## Canonical Artifacts\n\nThese files are the source of truth for this project.\n\n### Specification & Planning\n- `spec/spec.yaml`\n- `tracker/factory_tracker.yaml`\n- `invariants/invariants.md`\n\n### Cursor Rules\n- `.cursor/rules/00_global.md`\n- `.cursor/rules/10_invariants.md`\n\n### Prompt Templates\n- `prompts/chair_synthesis_template.md`\n- `prompts/step_template.md`\n- `prompts/review_template.md`\n- `prompts/patch_template.md`\n\n## Deprecated (do not reference)\n- `tracker/tracker.yaml`\n- `docs/build_guide.md`\n- `prompts/hotfix_sync.md`\n"
  else if path = "spec/spec.yaml" then
    "# Project Specification\n# Auto-generated from council run: " ++ runId ++
    "\n\nschema_version: \"0.1\"\ngenerated_at: \"" ++ nowIso ++ "\"\nrun_id: \"" ++ runId ++
    "\"\n\n# Decision Packet Summary\n# See docs/ARTIFACT_REGISTRY.md for canonical artifacts\n\n" ++
    decisionPacket ++ "\n"
  else if path = "tracker/factory_tracker.yaml" then
    "# Project Tracker\n# Auto-generated from council run: " ++ runId ++
    "\n\nschema_version: \"0.1\"\ngenerated_at: \"" ++ nowIso ++ "\"\nrun_id: \"" ++ runId ++
    "\"\n\nsteps:\n  - id: S01\n    title: \"Implementation step 1\"\n    status: todo\n    notes: \"See spec/spec.yaml for details\"\n"
  else if path = "invariants/invariants.md" then
    "# Project Invariants\n\n> Auto-generated from council run: " ++ runId ++
    "\n\n## Core Invariants\n\n1. **No Secrets in Repo** - Never commit API keys or credentials\n2. **Single Source of Truth** - Spec and tracker are authoritative\n3. **Minimal Changes** - Keep implementations boring and simple\n\n---\n\n*See invariants/invariants.md for full details.*\n"
  else if path = ".cursor/rules/00_global.md" then
    "# Global Cursor Rules\n\n> Auto-generated from council run: " ++ runId ++
    "\n\n## Guidelines\n\n1. Follow the spec/spec.yaml for project requirements\n2. Use tracker/factory_tracker.yaml to track progress\n3. Check invariants/invariants.md before making changes\n4. Keep implementations minimal and boring\n\n## References\n\n- Spec: spec/spec.yaml\n- Tracker: tracker/factory_tracker.yaml\n- Artifact Registry: docs/ARTIFACT_REGISTRY.md\n"
  else if path = ".cursor/rules/10_invariants.md" then
    "# Invariant Enforcement Rules\n\n> Auto-generated from council run: " ++ runId ++
    "\n\n## Before Any Change\n\n1. Read invariants/invariants.md\n2. Verify change does not violate any invariant\n3. If unsure, ask for clarification\n\n## After Any Change\n\n1. Run tests\n2. Verify invariants still hold\n"
  else if path = "prompts/step_template.md" then
    "# Step Implementation Template\n\n> Auto-generated from council run: " ++ runId ++
    "\n\n## Step: [STEP_ID]\n\n### Goal\n[What this step accomplishes]\n\n### Deliverables\n- [ ] Deliverable 1\n- [ ] Deliverable 2\n\n### Acceptance Criteria\n- [ ] Criterion 1\n- [ ] Criterion 2\n\n### Implementation Notes\n[Any special considerations]\n"
  else if path = "prompts/patch_template.md" then
    "# Patch Template\n\n> Auto-generated from council run: " ++ runId ++
    "\n\n## Patch: [PATCH_ID]\n\n### Issue\n[What problem this fixes]\n\n### Changes\n[What files are modified]\n\n### Verification\n[How to verify the fix]\n"
  else if path = "prompts/review_template.md" then
    "# Review Template\n\n> Auto-generated from council run: " ++ runId ++
    "\n\n## Review Checklist\n\n### Code Quality\n- [ ] Follows project conventions\n- [ ] No obvious bugs\n- [ ] Error handling present\n\n### Invariants\n- [ ] No secrets committed\n- [ ] Spec alignment verified\n- [ ] Tests pass\n\n### Documentation\n- [ ] Changes documented\n- [ ] README updated if needed\n"
  else if path = "prompts/chair_synthesis_template.md" then
    "# Chair Synthesis Template\n\n> Auto-generated from council run: " ++ runId ++
    "\n\n## Council Synthesis\n\n### Unified Direction\n[The agreed-upon approach]\n\n### Key Decisions\n1. [Decision 1]\n2. [Decision 2]\n\n### Tradeoffs Acknowledged\n[What we are giving up]\n\n### Next Actions\n1. [Action 1]\n2. [Action 2]\n"
  else
    "# " ++ pathStem path ++ "\n\n> Auto-generated from council run: " ++ runId ++
    "\n\n*Content placeholder - see spec/spec.yaml for details.*\n"

inductive CommitError where
  | runNotFound
  | notReady (status : String)
  | noSynthesis
  | registryMissing (err : String)
  | notGitRepo (detail : String)
  | dirtyRepo (status : String)
  | forbiddenPaths (paths : List String)
  | notAllowedPaths (paths : List String)
  | alreadyExists (paths : List String)
  | lockContention
  | dbFailure
deriving Repr, DecidableEq

/-- The outcome of one commit invocation: the returned manifest or raised
error, the target filesystem afterwards, the run-status updates applied, and
the artifacts written to the database. -/
structure CommitOutcome where
  result : Except CommitError CommitManifest
  fs : FS
  statusUpdates : List String
  newArtifacts : List (String × String)
deriving Repr

/-- The registry path validation of `commit_outputs` (lines 604-624): collect
every forbidden path in the write-set first (and reject on any), then every
path outside the allowlist. -/
def validatePathsBatch (registry : ArtifactRegistry) (paths : List String) :
    Except CommitError Unit :=
  let forbiddenInWrite := paths.filter (fun p => registry.isForbidden p)
  if !forbiddenInWrite.isEmpty then .error (.forbiddenPaths forbiddenInWrite)
  else
    let notAllowed := paths.filter (fun p => !registry.isAllowed p)
    if !notAllowed.isEmpty then .error (.notAllowedPaths notAllowed)
    else .ok ()

/-- The precondition phase of `commit_outputs` (lines 532-640): run lookup,
status, artifact selection, registry gate, git checks, registry path checks,
additive-only check, lock availability — all strictly before any filesystem
write.  Returns the selected (synthesis, decision) contents. -/
def commitOutputsChecks (run : Option RunRow) (artifacts : List DbArtifact)
    (registry : ArtifactRegistry) (registryError : Option String)
    (isGit : Bool) (gitDetail : String) (dirty : Bool) (dirtyStatus : String)
    (fs : FS) : Except CommitError (String × String) :=
  match run with
  | none => .error .runNotFound
  | some r =>
    if r.status ≠ "ready_to_commit" then .error (.notReady r.status)
    else
      let edited := getArtifactsByKind artifacts "synthesis_edited"
      let synths := getArtifactsByKind artifacts "synthesis"
      let sel : Option String :=
        match edited.head? with
        | some a => some a.content
        | none => synths.head?.map (fun a => a.content)
      match sel with
      | none => .error .noSynthesis
      | some synthesisContent =>
        let decisionContent :=
          ((getArtifactsByKind artifacts "decision_packet").head?.map
            (fun a => a.content)).getD ""
        if registryError.isSome && registry.source == "fallback" then
          .error (.registryMissing (registryError.getD ""))
        else if !isGit then .error (.notGitRepo gitDetail)
        else if dirty then .error (.dirtyRepo dirtyStatus)
        else
          let pathsToWrite := registry.canonical
          match validatePathsBatch registry pathsToWrite with
          | .error e => .error e
          | .ok () =>
            let existing := pathsToWrite.filter (fun p => fsExists fs p)
            if !existing.isEmpty then .error (.alreadyExists existing)
            else if fsExists fs LOCK_FILE then .error .lockContention
            else .ok (synthesisContent, decisionContent)

/-- The lock-held body of `commit_outputs` (lines 642-707): status update,
snapshot + stable writes, manifest files, `commit_log` artifact, final status,
with the lock released in `finally` on both outcomes. -/
def commitOutputsLocked (registry : ArtifactRegistry)
    (timestamp nowIso runId : String) (sha : String → String) (dbOk : Bool)
    (synthesisContent decisionContent : String) (fs : FS) : CommitOutcome :=
  let fs1 := fsWrite fs LOCK_FILE ("locked at " ++ timestamp)
  if !dbOk then
    -- the first DB call in the try body raises; finally releases the lock
    ⟨.error .dbFailure, fsRemove fs1 LOCK_FILE, [], []⟩
  else
    let snapshotDir := "versions/" ++ timestamp ++ "_" ++ runId
    let step := fun (acc : FS × List String × List (String × String)) (p : String) =>
      let content := generateStubContent p synthesisContent decisionContent runId nowIso
      (fsWrite (fsWrite acc.1 p content) (snapshotDir ++ "/" ++ p) content,
       acc.2.1 ++ [p], acc.2.2 ++ [(p, sha content)])
    let written := registry.canonical.foldl step (fs1, [], [])
    let manifest : CommitManifest :=
      { run_id := runId, timestamp := timestamp,
        stable_paths_written := written.2.1,
        snapshot_path := snapshotDir, file_hashes := written.2.2 }
    let fs2 := fsWrite written.1 (snapshotDir ++ "/COMMIT_MANIFEST.md")
      (manifestMarkdown manifest)
    let fs3 := fsWrite fs2 (snapshotDir ++ "/manifest.json") (manifestJson manifest)
    ⟨.ok manifest, fsRemove fs3 LOCK_FILE,
     ["committing", "completed"], [("commit_log", manifestJson manifest)]⟩

/-- `commit_outputs(run_id, repo_path)`: checks phase then locked write phase.
An error during the checks leaves the filesystem, run status and artifact log
untouched. -/
def commit_outputs (run : Option RunRow) (artifacts : List DbArtifact)
    (registry : ArtifactRegistry) (registryError : Option String)
    (isGit : Bool) (gitDetail : String) (dirty : Bool) (dirtyStatus : String)
    (timestamp nowIso runId : String) (sha : String → String) (dbOk : Bool)
    (fs : FS) : CommitOutcome :=
  match commitOutputsChecks run artifacts registry registryError isGit gitDetail
      dirty dirtyStatus fs with
  | .error e => ⟨.error e, fs, [], []⟩
  | .ok (synthesisContent, decisionContent) =>
    commitOutputsLocked registry timestamp nowIso runId sha dbOk
      synthesisContent decisionContent fs

/-- The registry path-validation loop shared by the single-artifact commit
variants (`commit_spec_outputs` lines 814-830 and the tracker / prompts /
cursor-rules / invariants / pack variants): per path, forbidden first, then
the allowlist. -/
def validatePathsPerPath (registry : ArtifactRegistry) :
    List String → Except CommitError Unit
  | [] => .ok ()
  | p :: rest =>
    if registry.isForbidden p then .error (.forbiddenPaths [p])
    else if !registry.isAllowed p then .error (.notAllowedPaths [p])
    else validatePathsPerPath registry rest

/-! ### Commit content selection (C4) -/

/-- Content selection of `commit_outputs` (lines 541-551): `synthesis_edited`
first, else `synthesis`; the `output` kind is never consulted. -/
def selectCommitOutputsContent (artifacts : List DbArtifact) : Except String String :=
  match (getArtifactsByKind artifacts "synthesis_edited").head? with
  | some a => .ok a.content
  | none =>
    match (getArtifactsByKind artifacts "synthesis").head? with
    | some a => .ok a.content
    | none => .error "No synthesis artifact found"

/-- Content selection of `commit_spec_outputs` (lines 744-758) and
`commit_tracker_outputs` (lines 961-975, identical logic):
`output`, else `synthesis_edited`, else `synthesis`. -/
def selectSpecCommitContent (artifacts : List DbArtifact) : Except String String :=
  match (getArtifactsByKind artifacts "output").head? with
  | some a => .ok a.content
  | none =>
    match (getArtifactsByKind artifacts "synthesis_edited").head? with
    | some a => .ok a.content
    | none =>
      match (getArtifactsByKind artifacts "synthesis").head? with
      | some a => .ok a.content
      | none => .error "No spec candidate or synthesis artifact found"

/-- Content selection of `commit_prompts_outputs` (lines 1191-1195),
`commit_cursor_rules_outputs` (lines 1443-1447) and
`commit_invariants_outputs` (lines 1689-1693): the `output` artifact only,
no fallback. -/
def selectOutputOnlyContent (artifacts : List DbArtifact) : Except String String :=
  match (getArtifactsByKind artifacts "output").head? with
  | some a => .ok a.content
  | none => .error "No output artifact found"

/-- The explicit prioritized lookup over artifact kinds (first kind with an
artifact wins, first artifact of that kind). -/
def firstContentOfKinds (artifacts : List DbArtifact) : List String → Option String
  | [] => none
  | k :: rest =>
    match (getArtifactsByKind artifacts k).head? with
    | some a => some a.content
    | none => firstContentOfKinds artifacts rest

/-- Modelled from the spec: "exactly one artifact kind (`output`, falling back
to `synthesis_edited` then `synthesis`) is authoritative input to commit" —
the single fixed priority order C4 asserts for every commit variant. -/
def specClaimedPriorityContent (artifacts : List DbArtifact) : Option String :=
  firstContentOfKinds artifacts ["output", "synthesis_edited", "synthesis"]

/-! ### Commit Engine lemmas -/

/-- If the precondition phase of `commit_outputs` succeeds, then no canonical
destination pre-existed, the lock was free, and the registry path validation
passed. -/
theorem commitOutputsChecks_ok
    {run : Option RunRow} {artifacts : List DbArtifact}
    {registry : ArtifactRegistry} {registryError : Option String}
    {isGit : Bool} {gitDetail : String} {dirty : Bool} {dirtyStatus : String}
    {fs : FS} {v : String × String}
    (h : commitOutputsChecks run artifacts registry registryError isGit gitDetail
      dirty dirtyStatus fs = .ok v) :
    (∀ p ∈ registry.canonical, fsExists fs p = false) ∧
    fsExists fs LOCK_FILE = false ∧
    validatePathsBatch registry registry.canonical = .ok () := by
  simp only [commitOutputsChecks] at h
  split at h
  · simp at h
  · split at h
    · simp at h
    · split at h
      · simp at h
      · split at h
        · simp at h
        · split at h
          · simp at h
          · split at h
            · simp at h
            · split at h
              · simp at h
              · split at h
                · simp at h
                · split at h
                  · simp at h
                  · rename_i hbatch hexist hlock
                    refine ⟨?_, ?_, ?_⟩
                    · intro p hp
                      have hnil : (registry.canonical.filter
                          (fun q => fsExists fs q)) = [] := by
                        simpa using hexist
                      have := List.filter_eq_nil_iff.mp hnil p hp
                      simpa using this
                    · simpa using hlock
                    · exact hbatch

/-- **C2.** Any pre-existing destination (canonical) path makes
`commit_outputs` raise with the target filesystem untouched: no destination
file, no snapshot file, no manifest, no status update, no artifact write,
and the lock state unchanged (a lock-free repository stays lock-free). -/
theorem commit_outputs_additive_only
    (run : Option RunRow) (artifacts : List DbArtifact)
    (registry : ArtifactRegistry) (registryError : Option String)
    (isGit : Bool) (gitDetail : String) (dirty : Bool) (dirtyStatus : String)
    (timestamp nowIso runId : String) (sha : String → String) (dbOk : Bool)
    (fs : FS) (o : CommitOutcome)
    (ho : o = commit_outputs run artifacts registry registryError isGit gitDetail
      dirty dirtyStatus timestamp nowIso runId sha dbOk fs)
    (hex : ∃ p ∈ registry.canonical, fsExists fs p = true) :
    (∃ e, o.result = .error e) ∧ o.fs = fs ∧
    o.statusUpdates = [] ∧ o.newArtifacts = [] ∧
    (fsExists fs LOCK_FILE = false → fsExists o.fs LOCK_FILE = false) := by
  obtain ⟨p, hp, hpex⟩ := hex
  cases hchk : commitOutputsChecks run artifacts registry registryError isGit
      gitDetail dirty dirtyStatus fs with
  | error e =>
    have hoe : o = ⟨.error e, fs, [], []⟩ := by
      rw [ho]; simp [commit_outputs, hchk]
    rw [hoe]
    exact ⟨⟨e, rfl⟩, rfl, rfl, rfl, fun h => h⟩
  | ok v =>
    exfalso
    have := (commitOutputsChecks_ok hchk).1 p hp
    rw [this] at hpex
    exact Bool.noConfusion hpex

/-- **C2 witness**: a concrete target repository that already contains
`spec/spec.yaml` makes the commit raise and leaves the filesystem as it was. -/
theorem commit_outputs_additive_only_witness :
    (∃ e, (commit_outputs (some ⟨"ready_to_commit"⟩) [⟨"synthesis", "S", 0⟩]
        ⟨["spec/spec.yaml"], ["versions/**"], [], "file"⟩ none true "" false ""
        "20260101_000000" "now" "r1" (fun _ => "h") true
        [("spec/spec.yaml", "old")]).result = .error e) ∧
    (commit_outputs (some ⟨"ready_to_commit"⟩) [⟨"synthesis", "S", 0⟩]
        ⟨["spec/spec.yaml"], ["versions/**"], [], "file"⟩ none true "" false ""
        "20260101_000000" "now" "r1" (fun _ => "h") true
        [("spec/spec.yaml", "old")]).fs = [("spec/spec.yaml", "old")] := by
  have h := commit_outputs_additive_only (some ⟨"ready_to_commit"⟩)
    [⟨"synthesis", "S", 0⟩] ⟨["spec/spec.yaml"], ["versions/**"], [], "file"⟩
    none true "" false "" "20260101_000000" "now" "r1" (fun _ => "h") true
    [("spec/spec.yaml", "old")] _ rfl ⟨"spec/spec.yaml", by simp, by rfl⟩
  exact ⟨h.1, h.2.1⟩

/-- **C7.** The commit lock protocol: a pre-existing lock file makes the
commit abort with an error and no filesystem change (no waiting is possible —
the embedding is a single pass); and whenever the invocation starts without
the lock, no lock file remains afterwards, on the success path and on every
error or exception path (`dbOk = false` models an exception inside the
lock-held `try` body). -/
theorem commit_outputs_lock_protocol
    (run : Option RunRow) (artifacts : List DbArtifact)
    (registry : ArtifactRegistry) (registryError : Option String)
    (isGit : Bool) (gitDetail : String) (dirty : Bool) (dirtyStatus : String)
    (timestamp nowIso runId : String) (sha : String → String) (dbOk : Bool)
    (fs : FS) (o : CommitOutcome)
    (ho : o = commit_outputs run artifacts registry registryError isGit gitDetail
      dirty dirtyStatus timestamp nowIso runId sha dbOk fs) :
    (fsExists fs LOCK_FILE = true → (∃ e, o.result = .error e) ∧ o.fs = fs) ∧
    (fsExists fs LOCK_FILE = false → fsExists o.fs LOCK_FILE = false) := by
  constructor
  · intro hlock
    cases hchk : commitOutputsChecks run artifacts registry registryError isGit
        gitDetail dirty dirtyStatus fs with
    | error e =>
      have hoe : o = ⟨.error e, fs, [], []⟩ := by
        rw [ho]; simp [commit_outputs, hchk]
      rw [hoe]
      exact ⟨⟨e, rfl⟩, rfl⟩
    | ok v =>
      exfalso
      have := (commitOutputsChecks_ok hchk).2.1
      rw [this] at hlock
      exact Bool.noConfusion hlock
  · intro hlock
    cases hchk : commitOutputsChecks run artifacts registry registryError isGit
        gitDetail dirty dirtyStatus fs with
    | error e =>
      have hoe : o = ⟨.error e, fs, [], []⟩ := by
        rw [ho]; simp [commit_outputs, hchk]
      rw [hoe]
      exact hlock
    | ok v =>
      obtain ⟨syn, dec⟩ := v
      have hoe : o = commitOutputsLocked registry timestamp nowIso runId sha dbOk
          syn dec fs := by
        rw [ho]; simp [commit_outputs, hchk]
      rw [hoe]
      by_cases hdb : dbOk
      · simp [commitOutputsLocked, hdb, fsExists_fsRemove_self]
      · simp [commitOutputsLocked, hdb, fsExists_fsRemove_self]

/-- **C7 witness**: with the lock present and every other precondition
satisfied, the commit aborts (specifically with the lock-contention error, by
computation) leaving the filesystem untouched; starting without a lock, none
remains after a successful commit nor after an in-flight exception. -/
theorem commit_outputs_lock_protocol_witness :
    ((∃ e, (commit_outputs (some ⟨"ready_to_commit"⟩) [⟨"synthesis", "S", 0⟩]
        ⟨["spec/spec.yaml"], ["versions/**"], [], "file"⟩ none true "" false ""
        "20260101_000000" "now" "r1" (fun _ => "h") true
        [(".factory-lock", "locked at t")]).result = .error e) ∧
      (commit_outputs (some ⟨"ready_to_commit"⟩) [⟨"synthesis", "S", 0⟩]
        ⟨["spec/spec.yaml"], ["versions/**"], [], "file"⟩ none true "" false ""
        "20260101_000000" "now" "r1" (fun _ => "h") true
        [(".factory-lock", "locked at t")]).fs = [(".factory-lock", "locked at t")]) ∧
    (commit_outputs (some ⟨"ready_to_commit"⟩) [⟨"synthesis", "S", 0⟩]
        ⟨["spec/spec.yaml"], ["versions/**"], [], "file"⟩ none true "" false ""
        "20260101_000000" "now" "r1" (fun _ => "h") true
        [(".factory-lock", "locked at t")]).result = .error .lockContention ∧
    fsExists (commit_outputs (some ⟨"ready_to_commit"⟩) [⟨"synthesis", "S", 0⟩]
        ⟨["spec/spec.yaml"], ["versions/**"], [], "file"⟩ none true "" false ""
        "20260101_000000" "now" "r1" (fun _ => "h") true []).fs LOCK_FILE = false ∧
    fsExists (commit_outputs (some ⟨"ready_to_commit"⟩) [⟨"synthesis", "S", 0⟩]
        ⟨["spec/spec.yaml"], ["versions/**"], [], "file"⟩ none true "" false ""
        "20260101_000000" "now" "r1" (fun _ => "h") false []).fs LOCK_FILE = false := by
  refine ⟨?_, by rfl, ?_, ?_⟩
  · exact (commit_outputs_lock_protocol (some ⟨"ready_to_commit"⟩)
      [⟨"synthesis", "S", 0⟩] ⟨["spec/spec.yaml"], ["versions/**"], [], "file"⟩
      none true "" false "" "20260101_000000" "now" "r1" (fun _ => "h") true
      [(".factory-lock", "locked at t")] _ rfl).1 (by rfl)
  · exact (commit_outputs_lock_protocol (some ⟨"ready_to_commit"⟩)
      [⟨"synthesis", "S", 0⟩] ⟨["spec/spec.yaml"], ["versions/**"], [], "file"⟩
      none true "" false "" "20260101_000000" "now" "r1" (fun _ => "h") true
      [] _ rfl).2 (by rfl)
  · exact (commit_outputs_lock_protocol (some ⟨"ready_to_commit"⟩)
      [⟨"synthesis", "S", 0⟩] ⟨["spec/spec.yaml"], ["versions/**"], [], "file"⟩
      none true "" false "" "20260101_000000" "now" "r1" (fun _ => "h") false
      [] _ rfl).2 (by rfl)

/-- **C6.** A path in both the forbidden and canonical registry lists is
treated as forbidden: the batch validation of `commit_outputs` (whose
write-set is exactly the canonical list) rejects with a forbidden-path error
naming it; the per-path validation of the other commit variants checks
forbidden before allowed (a forbidden path yields the forbidden error even
when it is also canonical/allowed) and never accepts a write-set containing
it; and `commit_outputs` itself always raises with the filesystem untouched. -/
theorem registry_forbidden_precedence
    (registry : ArtifactRegistry) (p : String)
    (hc : p ∈ registry.canonical) (hf : registry.isForbidden p = true) :
    (∃ ps, validatePathsBatch registry registry.canonical
        = .error (.forbiddenPaths ps) ∧ p ∈ ps) ∧
    (∀ rest, validatePathsPerPath registry (p :: rest)
        = .error (.forbiddenPaths [p])) ∧
    (∀ paths, p ∈ paths → validatePathsPerPath registry paths ≠ .ok ()) ∧
    (∀ (run : Option RunRow) (artifacts : List DbArtifact)
        (registryError : Option String) (isGit : Bool) (gitDetail : String)
        (dirty : Bool) (dirtyStatus : String)
        (timestamp nowIso runId : String) (sha : String → String)
        (dbOk : Bool) (fs : FS),
      (∃ e, (commit_outputs run artifacts registry registryError isGit gitDetail
          dirty dirtyStatus timestamp nowIso runId sha dbOk fs).result
        = .error e) ∧
      (commit_outputs run artifacts registry registryError isGit gitDetail
          dirty dirtyStatus timestamp nowIso runId sha dbOk fs).fs = fs) := by
  have hmem : p ∈ registry.canonical.filter (fun q => registry.isForbidden q) :=
    List.mem_filter.mpr ⟨hc, hf⟩
  have hbatch : validatePathsBatch registry registry.canonical
      = .error (.forbiddenPaths
          (registry.canonical.filter (fun q => registry.isForbidden q))) := by
    have hne : (registry.canonical.filter
        (fun q => registry.isForbidden q)).isEmpty = false := by
      cases hh : (registry.canonical.filter
          (fun q => registry.isForbidden q)).isEmpty
      · rfl
      · exfalso
        rw [List.isEmpty_iff] at hh
        rw [hh] at hmem
        cases hmem
    simp [validatePathsBatch, hne]
  refine ⟨⟨_, hbatch, hmem⟩, ?_, ?_, ?_⟩
  · intro rest
    simp [validatePathsPerPath, hf]
  · intro paths
    induction paths with
    | nil => intro hp; cases hp
    | cons q rest ih =>
      intro hp
      rcases List.mem_cons.mp hp with h1 | h2
      · subst h1
        simp [validatePathsPerPath, hf]
      · by_cases hq : registry.isForbidden q = true
        · simp [validatePathsPerPath, hq]
        · by_cases ha : registry.isAllowed q = true
          · simpa [validatePathsPerPath, hq, ha] using ih h2
          · simp [validatePathsPerPath, hq, ha]
  · intro run artifacts registryError isGit gitDetail dirty dirtyStatus
      timestamp nowIso runId sha dbOk fs
    cases hchk : commitOutputsChecks run artifacts registry registryError isGit
        gitDetail dirty dirtyStatus fs with
    | error e =>
      constructor
      · exact ⟨e, by simp [commit_outputs, hchk]⟩
      · simp [commit_outputs, hchk]
    | ok v =>
      exfalso
      have h2 := (commitOutputsChecks_ok hchk).2.2
      rw [hbatch] at h2
      exact Except.noConfusion h2

/-- **C6 witness**: `tracker/tracker.yaml` listed both canonical and forbidden
is rejected as forbidden by both validation shapes. -/
theorem registry_forbidden_precedence_witness :
    (∃ ps, validatePathsBatch
        ⟨["spec/spec.yaml", "tracker/tracker.yaml"], [],
          ["tracker/tracker.yaml"], "file"⟩
        ["spec/spec.yaml", "tracker/tracker.yaml"]
        = .error (.forbiddenPaths ps) ∧ "tracker/tracker.yaml" ∈ ps) ∧
    validatePathsPerPath
        ⟨["spec/spec.yaml", "tracker/tracker.yaml"], [],
          ["tracker/tracker.yaml"], "file"⟩
        ["tracker/tracker.yaml"]
        = .error (.forbiddenPaths ["tracker/tracker.yaml"]) := by
  have h := registry_forbidden_precedence
    ⟨["spec/spec.yaml", "tracker/tracker.yaml"], [],
      ["tracker/tracker.yaml"], "file"⟩
    "tracker/tracker.yaml" (by simp) (by rfl)
  exact ⟨h.1, h.2.1 []⟩

/-- **C4 counterexample.** The claimed single fixed priority order
(`output` then `synthesis_edited` then `synthesis`) is not what every commit
variant does: with both an `output` and a `synthesis_edited` artifact present,
`commit_outputs` publishes the `synthesis_edited` content (it never consults
`output`); and with only a `synthesis_edited` artifact, the prompts /
cursor-rules / invariants variants raise instead of falling back. -/
theorem commit_selection_not_single_priority :
    selectCommitOutputsContent
        [⟨"output", "O", 0⟩, ⟨"synthesis_edited", "E", 1⟩] = .ok "E" ∧
    specClaimedPriorityContent
        [⟨"output", "O", 0⟩, ⟨"synthesis_edited", "E", 1⟩] = some "O" ∧
    selectOutputOnlyContent [⟨"synthesis_edited", "E", 0⟩]
        = .error "No output artifact found" ∧
    specClaimedPriorityContent [⟨"synthesis_edited", "E", 0⟩] = some "E" := by
  exact ⟨rfl, rfl, rfl, rfl⟩

/-- **C4 amended.** Each commit variant's selection equals an explicit
prioritized lookup, but with three different chains: spec and tracker commits
use output, then synthesis_edited, then synthesis; the plan commit
(`commit_outputs`) uses synthesis_edited then synthesis and never consults
`output`; the prompts, cursor-rules and invariants commits use `output` only
and raise when it is absent. -/
theorem commit_selection_priority_chains (artifacts : List DbArtifact) :
    (selectSpecCommitContent artifacts).toOption
      = firstContentOfKinds artifacts ["output", "synthesis_edited", "synthesis"] ∧
    (selectCommitOutputsContent artifacts).toOption
      = firstContentOfKinds artifacts ["synthesis_edited", "synthesis"] ∧
    (selectOutputOnlyContent artifacts).toOption
      = firstContentOfKinds artifacts ["output"] := by
  refine ⟨?_, ?_, ?_⟩
  · cases ho : (getArtifactsByKind artifacts "output").head? with
    | some a => simp [selectSpecCommitContent, firstContentOfKinds, ho, Except.toOption]
    | none =>
      cases he : (getArtifactsByKind artifacts "synthesis_edited").head? with
      | some a =>
        simp [selectSpecCommitContent, firstContentOfKinds, ho, he, Except.toOption]
      | none =>
        cases hs : (getArtifactsByKind artifacts "synthesis").head? with
        | some a =>
          simp [selectSpecCommitContent, firstContentOfKinds, ho, he, hs,
            Except.toOption]
        | none =>
          simp [selectSpecCommitContent, firstContentOfKinds, ho, he, hs,
            Except.toOption]
  · cases he : (getArtifactsByKind artifacts "synthesis_edited").head? with
    | some a =>
      simp [selectCommitOutputsContent, firstContentOfKinds, he, Except.toOption]
    | none =>
      cases hs : (getArtifactsByKind artifacts "synthesis").head? with
      | some a =>
        simp [selectCommitOutputsContent, firstContentOfKinds, he, hs,
          Except.toOption]
      | none =>
        simp [selectCommitOutputsContent, firstContentOfKinds, he, hs,
          Except.toOption]
  · cases ho : (getArtifactsByKind artifacts "output").head? with
    | some a => simp [selectOutputOnlyContent, firstContentOfKinds, ho, Except.toOption]
    | none => simp [selectOutputOnlyContent, firstContentOfKinds, ho, Except.toOption]

/-! ## Output Validator selection — `validator.py` and `repo.py`

`get_artifacts` (repo.py lines 216-253) returns a run's artifacts ordered by
`created_at` ascending, so index `[0]` is the oldest.  `validate_run_outputs`
(validator.py lines 143-197) consults only `synthesis_artifacts[0]` and
`decision_artifacts[0]`; the commit selection functions above likewise take
`[0]` of the chosen kind.  The content-level checks
(`_validate_synthesis_content`, `_validate_decision_packet_content`) are
regex/YAML routines consulted opaquely on that single artifact's content;
they enter the embedding as parameters, so the selection results below hold
for every content check. -/

structure ValidationResult where
  is_valid : Bool
  details : String
  failed_artifacts : List String
deriving Repr, DecidableEq

/-- `validate_run_outputs(run_id)` over the run's artifact log. -/
def validate_run_outputs (validSynth validDecision : String → Bool × String)
    (artifacts : List DbArtifact) : ValidationResult :=
  let synthBad :=
    match (getArtifactsByKind artifacts "synthesis").head? with
    | none => some "No synthesis artifact found"
    | some a =>
      let r := validSynth a.content
      if r.1 then none else some ("Synthesis: " ++ r.2)
  let decisionBad :=
    match (getArtifactsByKind artifacts "decision_packet").head? with
    | none => some "No decision_packet artifact found"
    | some a =>
      let r := validDecision a.content
      if r.1 then none else some ("Decision packet: " ++ r.2)
  let failed := (if synthBad.isSome then ["synthesis"] else []) ++
    (if decisionBad.isSome then ["decision_packet"] else [])
  let errs := (match synthBad with | some e => [e] | none => []) ++
    (match decisionBad with | some e => [e] | none => [])
  if !failed.isEmpty then
    ⟨false, String.intercalate "; " errs, failed⟩
  else
    ⟨true, "All outputs validated successfully", []⟩

/-- Appending a later-written artifact never changes which artifact is first
of any kind, as long as some artifact of the new one's kind already exists. -/
theorem getArtifactsByKind_append_single (db : List DbArtifact) (a : DbArtifact)
    (hne : getArtifactsByKind db a.kind ≠ []) (k : String) :
    (getArtifactsByKind (db ++ [a]) k).head? = (getArtifactsByKind db k).head? := by
  unfold getArtifactsByKind at hne ⊢
  rw [List.filter_append]
  by_cases hk : (a.kind == k) = true
  · have hak : a.kind = k := beq_iff_eq.mp hk
    rw [← hak]
    obtain ⟨x, t, hxt⟩ := List.exists_cons_of_ne_nil hne
    rw [hxt]
    rfl
  · have : List.filter (fun b => b.kind == k) [a] = [] := by
      simp only [List.filter, hk]
    rw [this, List.append_nil]

/-- **C10.** First-artifact (oldest-wins) selection: with the artifact log in
`created_at` ascending order, the artifact `validate_run_outputs` and the
commit selections consult is the one with minimal `created_at` of its kind;
and writing a further artifact of an already-present kind changes neither the
validation outcome nor any commit variant's selected content — a later-written
artifact is never the one validated or committed. -/
theorem first_artifact_selection (db : List DbArtifact) :
    (∀ (k : String) (sel : DbArtifact),
      List.Sorted (fun a b => a.createdAt ≤ b.createdAt) db →
      (getArtifactsByKind db k).head? = some sel →
      ∀ a ∈ db, a.kind = k → sel.createdAt ≤ a.createdAt) ∧
    (∀ (a : DbArtifact), getArtifactsByKind db a.kind ≠ [] →
      (∀ validSynth validDecision,
        validate_run_outputs validSynth validDecision (db ++ [a])
          = validate_run_outputs validSynth validDecision db) ∧
      selectSpecCommitContent (db ++ [a]) = selectSpecCommitContent db ∧
      selectCommitOutputsContent (db ++ [a]) = selectCommitOutputsContent db ∧
      selectOutputOnlyContent (db ++ [a]) = selectOutputOnlyContent db) := by
  constructor
  · intro k sel hs hhead a ha hak
    have hsf : List.Sorted (fun a b => a.createdAt ≤ b.createdAt)
        (getArtifactsByKind db k) := List.Pairwise.filter _ hs
    have hmemf : a ∈ getArtifactsByKind db k := by
      unfold getArtifactsByKind
      exact List.mem_filter.mpr ⟨ha, by simp [hak]⟩
    cases hfe : getArtifactsByKind db k with
    | nil => rw [hfe] at hhead; cases hhead
    | cons x t =>
      rw [hfe] at hhead
      simp only [List.head?_cons, Option.some.injEq] at hhead
      subst hhead
      rw [hfe] at hmemf hsf
      rcases List.mem_cons.mp hmemf with h1 | h2
      · rw [h1]
      · exact List.rel_of_sorted_cons hsf a h2
  · intro a hne
    have hh := getArtifactsByKind_append_single db a hne
    refine ⟨?_, ?_, ?_, ?_⟩
    · intro validSynth validDecision
      simp only [validate_run_outputs]
      rw [hh "synthesis", hh "decision_packet"]
    · simp only [selectSpecCommitContent]
      rw [hh "output", hh "synthesis_edited", hh "synthesis"]
    · simp only [selectCommitOutputsContent]
      rw [hh "synthesis_edited", hh "synthesis"]
    · simp only [selectOutputOnlyContent]
      rw [hh "output"]

/-- **C10 witness**: with two synthesis artifacts, the older (createdAt 1) is
selected over the newer (createdAt 2), and appending a third synthesis
artifact changes neither validation nor any commit selection. -/
theorem first_artifact_selection_witness :
    ((⟨"synthesis", "first", 1⟩ : DbArtifact).createdAt ≤
      (⟨"synthesis", "second", 2⟩ : DbArtifact).createdAt) ∧
    (validate_run_outputs (fun s => (s == "first", "")) (fun _ => (true, ""))
        ([⟨"synthesis", "first", 1⟩, ⟨"synthesis", "second", 2⟩,
          ⟨"decision_packet", "dp", 3⟩] ++ [⟨"synthesis", "third", 4⟩])
      = validate_run_outputs (fun s => (s == "first", "")) (fun _ => (true, ""))
        [⟨"synthesis", "first", 1⟩, ⟨"synthesis", "second", 2⟩,
          ⟨"decision_packet", "dp", 3⟩]) ∧
    (selectCommitOutputsContent
        ([⟨"synthesis", "first", 1⟩, ⟨"synthesis", "second", 2⟩,
          ⟨"decision_packet", "dp", 3⟩] ++ [⟨"synthesis", "third", 4⟩])
      = selectCommitOutputsContent
        [⟨"synthesis", "first", 1⟩, ⟨"synthesis", "second", 2⟩,
          ⟨"decision_packet", "dp", 3⟩]) := by
  have h := first_artifact_selection
    [⟨"synthesis", "first", 1⟩, ⟨"synthesis", "second", 2⟩,
      ⟨"decision_packet", "dp", 3⟩]
  have h1 := h.1 "synthesis" ⟨"synthesis", "first", 1⟩ (by decide) rfl
    ⟨"synthesis", "second", 2⟩ (by simp) rfl
  have h2 := h.2 ⟨"synthesis", "third", 4⟩ (by decide)
  exact ⟨h1, h2.1 _ _, h2.2.2.1⟩

/-! ## Prompts council chair validation — `phase2/prompts_council.py`

Embeds the chair-output validation of `run_prompts_council` (lines 496-584):
fence stripping, the YAML-envelope checks, and the failure handling (error
artifact, `"failed"` status, no `output` artifact).  `yaml.safe_load` is an
external library and enters as a parse oracle `String -> Except String Yaml`
over a datatype of parsed YAML values; the envelope checks themselves are
translated from the source. -/

/-- A parsed YAML value as `yaml.safe_load` returns it: scalars (string,
number, boolean, null), sequences, and string-keyed mappings (Python dicts,
unique keys). -/
inductive Yaml where
  | s (v : String)
  | num (v : ℚ)
  | b (v : Bool)
  | nullV
  | seq (vs : List Yaml)
  | map (kvs : List (String × Yaml))

def REQUIRED_PROMPT_KEYS : List String :=
  ["prompts/step_template.md", "prompts/review_template.md",
   "prompts/patch_template.md", "prompts/chair_synthesis_template.md"]

/-- Python `f"{value}"` on a scalar (collections only occur in error text). -/
def scalarRepr : Yaml → String
  | .s v => v
  | .num q => toString q
  | .b true => "True"
  | .b false => "False"
  | .nullV => "None"
  | .seq _ => "[...]"
  | .map _ => "\x7b...\x7d"

/-- The per-key value checks (lines 538-544): each required key must map to a
non-empty string.  The `none` lookup case is unreachable (presence was
checked) but still maps to an error, never a silent pass. -/
def checkPromptValues (outputs : List (String × Yaml)) :
    List String → Option String
  | [] => none
  | k :: rest =>
    match List.lookup k outputs with
    | some (.s v) =>
      if pyStrip v = "" then some ("outputs['" ++ k ++ "'] is empty")
      else checkPromptValues outputs rest
    | some y => some ("outputs['" ++ k ++ "'] must be a string, got " ++ scalarRepr y)
    | none => some ("outputs['" ++ k ++ "'] missing")

/-- The `schema_version` membership test `sv in ("0.1", 0.1)` (line 518). -/
def svAccepted (sv : Option Yaml) : Bool :=
  match sv with
  | some (.s v) => v == "0.1"
  | some (.num q) => q == (1 / 10 : ℚ)
  | _ => false

/-- The `outputs` sub-mapping checks (lines 529-544): exactly the required
keys, no extras, every value a non-empty string. -/
def validateOutputsMapping (outputs : List (String × Yaml)) : Option String :=
  let keys := outputs.map (fun kv => kv.1)
  let missing := REQUIRED_PROMPT_KEYS.filter (fun k => !keys.contains k)
  if !missing.isEmpty then
    some ("Missing required output keys: " ++ toString missing)
  else
    let extra := keys.filter (fun k => !REQUIRED_PROMPT_KEYS.contains k)
    if !extra.isEmpty then
      some ("Unexpected output keys: " ++ toString extra)
    else checkPromptValues outputs REQUIRED_PROMPT_KEYS

/-- The envelope validation (lines 509-544): mapping at top level,
`schema_version` in `("0.1", 0.1)`, an `outputs` mapping with exactly the 4
required keys, every value a non-empty string.  Returns the `ValueError`
message, or `none` when the envelope is accepted. -/
def validatePromptsEnvelope (parsed : Yaml) : Option String :=
  match parsed with
  | .map kvs =>
    if !svAccepted (List.lookup "schema_version" kvs) then
      some ("schema_version must be 0.1, got: " ++
        (match List.lookup "schema_version" kvs with
         | some y => scalarRepr y
         | none => "None"))
    else
      match List.lookup "outputs" kvs with
      | none => some "Missing required top-level key: outputs"
      | some (.map outputs) => validateOutputsMapping outputs
      | some _ => some "outputs must be a dict"
  | _ => some "YAML must be a mapping/dict at top level"

/-- The fence stripping (lines 499-507): strip, drop an opening ``` line,
drop a closing ``` line, strip again. -/
def stripFences (raw : String) : String :=
  let c := pyStrip raw
  if c.startsWith "```" then
    let lines := (c.splitOn "\n").drop 1
    let lines :=
      match lines.getLast? with
      | some l => if pyStrip l = "```" then lines.dropLast else lines
      | none => lines
    pyStrip (joinLines lines)
  else c

/-- Outcome of the chair-synthesis validation step: the run status it leaves
and the artifacts it appends. -/
structure ChairStageOutcome where
  status : String
  newArtifacts : List (String × String)
deriving Repr, DecidableEq

/-- The chair-output handling of `run_prompts_council` (lines 496-600): on a
YAML parse error or a failed envelope validation, write an `error` artifact
embedding the (stripped, 2000-char-truncated) chair text and set the run
`"failed"`; on success store the raw text as `synthesis`, the cleaned
envelope as `output`, and reach `"waiting_for_approval"`. -/
def promptsChairValidate (chairRaw : String)
    (parse : String → Except String Yaml) : ChairStageOutcome :=
  let envelopeContent := stripFences chairRaw
  match parse envelopeContent with
  | .error ye =>
    ⟨"failed",
     [("error", "Chair output is not valid YAML:\n" ++ ye ++
        "\n\nRaw output (first 2000 chars):\n" ++ envelopeContent.take 2000)]⟩
  | .ok parsed =>
    match validatePromptsEnvelope parsed with
    | some ve =>
      ⟨"failed",
       [("error", "Chair output failed validation:\n" ++ ve ++
          "\n\nRaw output (first 2000 chars):\n" ++ envelopeContent.take 2000)]⟩
    | none =>
      ⟨"waiting_for_approval",
       [("synthesis", chairRaw), ("output", envelopeContent)]⟩

theorem checkPromptValues_none {outputs : List (String × Yaml)} :
    ∀ {keys : List String}, checkPromptValues outputs keys = none →
      ∀ k ∈ keys, ∃ v, List.lookup k outputs = some (.s v) ∧ pyStrip v ≠ "" := by
  intro keys
  induction keys with
  | nil => intro _ k hk; cases hk
  | cons q rest ih =>
    intro h k hk
    unfold checkPromptValues at h
    rcases List.mem_cons.mp hk with h1 | h2
    · subst h1
      split at h
      · rename_i v hv
        split at h
        · cases h
        · rename_i hne
          exact ⟨v, hv, hne⟩
      · cases h
      · cases h
    · split at h
      · split at h
        · cases h
        · exact ih h k h2
      · cases h
      · cases h

theorem svAccepted_true {sv : Option Yaml} (h : svAccepted sv = true) :
    sv = some (.s "0.1") ∨ sv = some (.num (1 / 10)) := by
  unfold svAccepted at h
  split at h
  · rw [beq_iff_eq] at h
    subst h
    exact Or.inl rfl
  · rw [beq_iff_eq] at h
    subst h
    exact Or.inr rfl
  · cases h

theorem validateOutputsMapping_none {outputs : List (String × Yaml)}
    (h : validateOutputsMapping outputs = none) :
    (∀ k ∈ REQUIRED_PROMPT_KEYS, k ∈ outputs.map Prod.fst) ∧
    (∀ k ∈ outputs.map Prod.fst, k ∈ REQUIRED_PROMPT_KEYS) ∧
    (∀ k ∈ REQUIRED_PROMPT_KEYS,
      ∃ v, List.lookup k outputs = some (.s v) ∧ pyStrip v ≠ "") := by
  simp only [validateOutputsMapping] at h
  split at h
  · cases h
  · rename_i hmissing
    split at h
    · cases h
    · rename_i hextra
      refine ⟨?_, ?_, checkPromptValues_none h⟩
      · intro k hk
        by_cases hmem : k ∈ outputs.map (fun kv => kv.1)
        · simpa using hmem
        · exfalso
          apply hmissing
          have hkm : k ∈ REQUIRED_PROMPT_KEYS.filter
              (fun q => !(outputs.map (fun kv => kv.1)).contains q) := by
            refine List.mem_filter.mpr ⟨hk, ?_⟩
            simp only [Bool.not_eq_true']
            rw [← Bool.not_eq_true]
            intro hc
            exact hmem (by simpa using hc)
          have hie : (REQUIRED_PROMPT_KEYS.filter
              (fun q => !(outputs.map (fun kv => kv.1)).contains q)).isEmpty
              = false := by
            cases hh : (REQUIRED_PROMPT_KEYS.filter
                (fun q => !(outputs.map (fun kv => kv.1)).contains q)).isEmpty
            · rfl
            · exfalso
              rw [List.isEmpty_iff] at hh
              rw [hh] at hkm
              cases hkm
          rw [hie]
          rfl
      · intro k hk
        by_cases hmem : k ∈ REQUIRED_PROMPT_KEYS
        · exact hmem
        · exfalso
          apply hextra
          have hkm : k ∈ (outputs.map (fun kv => kv.1)).filter
              (fun q => !REQUIRED_PROMPT_KEYS.contains q) := by
            refine List.mem_filter.mpr ⟨by simpa using hk, ?_⟩
            simp only [Bool.not_eq_true']
            rw [← Bool.not_eq_true]
            intro hc
            exact hmem (by simpa using hc)
          have hie : ((outputs.map (fun kv => kv.1)).filter
              (fun q => !REQUIRED_PROMPT_KEYS.contains q)).isEmpty = false := by
            cases hh : ((outputs.map (fun kv => kv.1)).filter
                (fun q => !REQUIRED_PROMPT_KEYS.contains q)).isEmpty
            · rfl
            · exfalso
              rw [List.isEmpty_iff] at hh
              rw [hh] at hkm
              cases hkm
          rw [hie]
          rfl

/-- **C5.** Chair-synthesis gate of the prompts council: (1) an envelope
passes validation exactly when the parsed text is a mapping with
`schema_version` the literal `0.1` (string or number) and an `outputs`
sub-mapping whose key set is exactly the 4 required prompt paths, each mapped
to a non-empty string — any missing key, extra key, non-string or empty value
is a hard failure; (2) on any parse or validation failure the run status
becomes `"failed"`, an `error` artifact containing the (fence-stripped,
2000-char-truncated) chair text is stored, and no `output` artifact is
written. -/
theorem prompts_chair_envelope_gate (chairRaw : String)
    (parse : String → Except String Yaml) :
    (∀ parsed, validatePromptsEnvelope parsed = none →
      ∃ kvs, parsed = .map kvs ∧
        (List.lookup "schema_version" kvs = some (.s "0.1") ∨
         List.lookup "schema_version" kvs = some (.num (1 / 10))) ∧
        ∃ outs, List.lookup "outputs" kvs = some (.map outs) ∧
          (∀ k ∈ REQUIRED_PROMPT_KEYS, k ∈ outs.map Prod.fst) ∧
          (∀ k ∈ outs.map Prod.fst, k ∈ REQUIRED_PROMPT_KEYS) ∧
          (∀ k ∈ REQUIRED_PROMPT_KEYS,
            ∃ v, List.lookup k outs = some (.s v) ∧ pyStrip v ≠ "")) ∧
    ((match parse (stripFences chairRaw) with
      | .error _ => True
      | .ok parsed => validatePromptsEnvelope parsed ≠ none) →
      (promptsChairValidate chairRaw parse).status = "failed" ∧
      (∃ c, ("error", c) ∈ (promptsChairValidate chairRaw parse).newArtifacts ∧
        pyIn ((stripFences chairRaw).take 2000) c = true) ∧
      (∀ c, ("output", c) ∉ (promptsChairValidate chairRaw parse).newArtifacts)) := by
  constructor
  · intro parsed h
    cases parsed with
    | map kvs =>
      refine ⟨kvs, rfl, ?_⟩
      by_cases hsv : svAccepted (List.lookup "schema_version" kvs) = true
      · refine ⟨svAccepted_true hsv, ?_⟩
        simp only [validatePromptsEnvelope] at h
        rw [hsv] at h
        simp only [Bool.not_true, Bool.false_eq_true, if_false] at h
        cases ho : List.lookup "outputs" kvs with
        | none => rw [ho] at h; cases h
        | some ov =>
          rw [ho] at h
          cases ov with
          | map outputs => exact ⟨outputs, rfl, validateOutputsMapping_none h⟩
          | s v => cases h
          | num q => cases h
          | b v => cases h
          | nullV => cases h
          | seq vs => cases h
      · exfalso
        have hsv' : svAccepted (List.lookup "schema_version" kvs) = false :=
          Bool.eq_false_iff.mpr hsv
        simp only [validatePromptsEnvelope] at h
        rw [hsv'] at h
        simp only [Bool.not_false, if_true] at h
        cases h
    | s v => cases h
    | num q => cases h
    | b v => cases h
    | nullV => cases h
    | seq vs => cases h
  · intro hfail
    cases hp : parse (stripFences chairRaw) with
    | error ye =>
      refine ⟨?_, ?_, ?_⟩
      · simp [promptsChairValidate, hp]
      · refine ⟨"Chair output is not valid YAML:\n" ++ ye ++
          "\n\nRaw output (first 2000 chars):\n" ++
          (stripFences chairRaw).take 2000, ?_, ?_⟩
        · simp [promptsChairValidate, hp]
        · exact pyIn_of_append_right _ _ _ (pyIn_refl _)
      · intro c hc
        simp [promptsChairValidate, hp] at hc
    | ok parsed =>
      rw [hp] at hfail
      cases hv : validatePromptsEnvelope parsed with
      | none => exact absurd hv hfail
      | some ve =>
        refine ⟨?_, ?_, ?_⟩
        · simp [promptsChairValidate, hp, hv]
        · refine ⟨"Chair output failed validation:\n" ++ ve ++
            "\n\nRaw output (first 2000 chars):\n" ++
            (stripFences chairRaw).take 2000, ?_, ?_⟩
          · simp [promptsChairValidate, hp, hv]
          · exact pyIn_of_append_right _ _ _ (pyIn_refl _)
        · intro c hc
          simp [promptsChairValidate, hp, hv] at hc

/-- **C5 witness** (Scenario C): the chair returns valid YAML with
`schema_version: "0.1"` but no `outputs` key — the run fails, an `error`
artifact embedding the chair text exists, and no `output` artifact exists. -/
theorem prompts_chair_envelope_gate_witness :
    (promptsChairValidate "schema_version: \"0.1\""
      (fun _ => .ok (.map [("schema_version", .s "0.1")]))).status = "failed" ∧
    (∃ c, ("error", c) ∈ (promptsChairValidate "schema_version: \"0.1\""
      (fun _ => .ok (.map [("schema_version", .s "0.1")]))).newArtifacts ∧
      pyIn ((stripFences "schema_version: \"0.1\"").take 2000) c = true) ∧
    (∀ c, ("output", c) ∉ (promptsChairValidate "schema_version: \"0.1\""
      (fun _ => .ok (.map [("schema_version", .s "0.1")]))).newArtifacts) := by
  exact (prompts_chair_envelope_gate "schema_version: \"0.1\""
    (fun _ => .ok (.map [("schema_version", .s "0.1")]))).2 (by decide)

/-! ## Approval rejection flow — `cli.py` `approve` (lines 574-769)

Embeds the `--reject` branch: preconditions (run exists, status
`waiting_for_approval`, a synthesis artifact exists, non-empty feedback),
then the approval record, the status transition to `"failed"`, the creation
of a child run with `parent_run_id` set to the rejected run, and the child's
initial `packet` artifact: the rejected run's first packet content followed
by the feedback under the `## Human Feedback` heading.  The database is
explicit; the fresh child id and the insertion timestamp are parameters. -/

structure RunRecord where
  id : Nat
  projectSlug : String
  taskType : String
  status : String
  parentRunId : Option Nat
deriving Repr, DecidableEq

structure RunArtifact where
  runId : Nat
  kind : String
  content : String
  createdAt : Nat
deriving Repr, DecidableEq

structure Db where
  runs : List RunRecord
  artifacts : List RunArtifact
  approvals : List (Nat × String × Option String)
deriving Repr, DecidableEq

/-- `get_run(run_id)`. -/
def getRun (db : Db) (runId : Nat) : Option RunRecord :=
  (db.runs.filter (fun r => r.id == runId)).head?

/-- `get_artifacts(run_id, kind)` (the artifact log is kept in `created_at`
ascending insertion order, matching the SQL `ORDER BY created_at ASC`). -/
def getRunArtifacts (db : Db) (runId : Nat) (kind : String) : List RunArtifact :=
  db.artifacts.filter (fun a => a.runId == runId && a.kind == kind)

/-- `update_run_status(run_id, status)`. -/
def updateRunStatus (db : Db) (runId : Nat) (status : String) : Db :=
  { db with
      runs := db.runs.map
        (fun r => if r.id == runId then { r with status := status } else r) }

/-- The `--reject` action of the `approve` command: `.error` models a
`SystemExit` after an error message, `.ok` the updated database.  The packet
lookup reads the original log: the approval record, the status update and the
run creation in between do not touch the artifacts table, so this equals the
source's post-creation `get_artifacts(run_uuid, kind="packet")`. -/
def approveReject (db : Db) (runId : Nat) (feedback : String)
    (newId now : Nat) : Except String Db :=
  match getRun db runId with
  | none => .error "Run not found"
  | some run =>
    if run.status ≠ "waiting_for_approval" then
      .error "Run is not waiting for approval"
    else
      match (getRunArtifacts db runId "synthesis").head? with
      | none => .error "No synthesis found for this run"
      | some _ =>
        if pyStrip feedback = "" then .error "Feedback is required for rejection"
        else
          let approvals1 := db.approvals ++ [(runId, "reject", some feedback)]
          let runs1 := db.runs.map
            (fun r => if r.id == runId then { r with status := "failed" } else r)
          let newRun : RunRecord :=
            { id := newId, projectSlug := run.projectSlug,
              taskType := run.taskType, status := "created",
              parentRunId := some runId }
          let runs2 := runs1 ++ [newRun]
          match (getRunArtifacts db runId "packet").head? with
          | some pa =>
            .ok { runs := runs2,
                  artifacts := db.artifacts ++
                    [⟨newId, "packet",
                      pa.content ++
                        "\n\n---\n\n## Human Feedback (from rejected run "
                        ++ toString runId ++ ")\n\n" ++ feedback, now⟩],
                  approvals := approvals1 }
          | none =>
            .ok { runs := runs2, artifacts := db.artifacts,
                  approvals := approvals1 }

/-- Updating one run's status updates exactly the looked-up run. -/
theorem getRun_filter_map_update (runId : Nat) (newStatus : String)
    (run : RunRecord) :
    ∀ (runs : List RunRecord),
      (runs.filter (fun r => r.id == runId)).head? = some run →
      ((runs.map (fun r =>
          if r.id == runId then { r with status := newStatus } else r)).filter
        (fun r => r.id == runId)).head?
        = some { run with status := newStatus } := by
  intro runs
  induction runs with
  | nil => intro h; cases h
  | cons q rest ih =>
    intro h
    by_cases hq : q.id = runId
    · have hqb : (q.id == runId) = true := beq_iff_eq.mpr hq
      rw [List.filter_cons, if_pos (by rw [hqb])] at h
      simp only [List.head?_cons, Option.some.injEq] at h
      subst h
      have hupd : (if q.id == runId then { q with status := newStatus } else q)
          = { q with status := newStatus } := by rw [if_pos (by rw [hqb])]
      have hid : ({ q with status := newStatus } : RunRecord).id = q.id := rfl
      rw [List.map_cons, hupd, List.filter_cons, if_pos (by rw [hid, hqb])]
      rfl
    · have hqb : (q.id == runId) = false := beq_eq_false_iff_ne.mpr hq
      rw [List.filter_cons, if_neg (by rw [hqb]; exact Bool.noConfusion)] at h
      have hupd : (if q.id == runId then { q with status := newStatus } else q)
          = q := by rw [if_neg (by rw [hqb]; exact Bool.noConfusion)]
      rw [List.map_cons, hupd, List.filter_cons,
        if_neg (by rw [hqb]; exact Bool.noConfusion)]
      exact ih h

/-- **C8.** Rejecting a `waiting_for_approval` run with non-empty feedback:
the run survives with status `"failed"` (nothing is deleted), a child run of
the same project and task type is created with `parent_run_id` pointing at
the rejected run, and the child's initial packet artifact is exactly the
rejected run's original (first) packet content followed by the feedback under
the delimited `## Human Feedback` heading. -/
theorem approve_reject_spawns_child
    (db : Db) (runId newId now : Nat) (feedback : String) (run : RunRecord)
    (packet : RunArtifact)
    (hrun : getRun db runId = some run)
    (hstatus : run.status = "waiting_for_approval")
    (hsynth : (getRunArtifacts db runId "synthesis").head?.isSome = true)
    (hfb : ¬ pyStrip feedback = "")
    (hpacket : (getRunArtifacts db runId "packet").head? = some packet)
    (hfreshArt : ∀ a ∈ db.artifacts, a.runId ≠ newId) :
    ∃ db', approveReject db runId feedback newId now = .ok db' ∧
      getRun db' runId = some { run with status := "failed" } ∧
      db'.runs.length = db.runs.length + 1 ∧
      (∃ child ∈ db'.runs, child.id = newId ∧ child.parentRunId = some runId ∧
        child.projectSlug = run.projectSlug ∧ child.taskType = run.taskType ∧
        child.status = "created") ∧
      getRunArtifacts db' newId "packet"
        = [⟨newId, "packet",
            packet.content ++ "\n\n---\n\n## Human Feedback (from rejected run "
              ++ toString runId ++ ")\n\n" ++ feedback, now⟩] := by
  obtain ⟨sa, hsa⟩ := Option.isSome_iff_exists.mp hsynth
  have hnotstat : ¬ (run.status ≠ "waiting_for_approval") := by
    rw [hstatus]; exact fun hh => hh rfl
  refine ⟨⟨(db.runs.map (fun r =>
        if r.id == runId then { r with status := "failed" } else r)) ++
        [⟨newId, run.projectSlug, run.taskType, "created", some runId⟩],
      db.artifacts ++
        [⟨newId, "packet",
          packet.content ++ "\n\n---\n\n## Human Feedback (from rejected run "
            ++ toString runId ++ ")\n\n" ++ feedback, now⟩],
      db.approvals ++ [(runId, "reject", some feedback)]⟩, ?_, ?_, ?_, ?_, ?_⟩
  · simp only [approveReject, hrun]
    rw [if_neg hnotstat, hsa]
    dsimp only
    rw [if_neg hfb, hpacket]
  · simp only [getRun]
    rw [List.filter_append]
    have hh := getRun_filter_map_update runId "failed" run db.runs hrun
    cases hfe : (db.runs.map (fun r =>
        if r.id == runId then { r with status := "failed" } else r)).filter
        (fun r => r.id == runId) with
    | nil => rw [hfe] at hh; cases hh
    | cons x t =>
      rw [hfe] at hh
      simp only [List.head?_cons, Option.some.injEq] at hh
      subst hh
      rfl
  · simp
  · exact ⟨⟨newId, run.projectSlug, run.taskType, "created", some runId⟩,
      List.mem_append_right _ (by simp), rfl, rfl, rfl, rfl, rfl⟩
  · simp only [getRunArtifacts]
    rw [List.filter_append]
    have hnil : db.artifacts.filter
        (fun a => a.runId == newId && a.kind == "packet") = [] := by
      rw [List.filter_eq_nil_iff]
      intro a ha
      have hne : (a.runId == newId) = false :=
        beq_eq_false_iff_ne.mpr (hfreshArt a ha)
      simp [hne]
    rw [hnil]
    simp

/-- **C8 witness**: a concrete one-run database; rejection with feedback
`"too vague"` keeps the run as `"failed"` and spawns child run 2 whose packet
is the original packet plus the delimited feedback. -/
theorem approve_reject_spawns_child_witness :
    ∃ db', approveReject
        { runs := [⟨1, "proj", "plan", "waiting_for_approval", none⟩],
          artifacts := [⟨1, "packet", "PACKET", 0⟩, ⟨1, "synthesis", "SYN", 1⟩],
          approvals := [] } 1 "too vague" 2 9 = .ok db' ∧
      getRun db' 1 = some ⟨1, "proj", "plan", "failed", none⟩ ∧
      db'.runs.length = 1 + 1 ∧
      (∃ child ∈ db'.runs, child.id = 2 ∧ child.parentRunId = some 1 ∧
        child.projectSlug = "proj" ∧ child.taskType = "plan" ∧
        child.status = "created") ∧
      getRunArtifacts db' 2 "packet"
        = [⟨2, "packet",
            "PACKET" ++ "\n\n---\n\n## Human Feedback (from rejected run "
              ++ toString 1 ++ ")\n\n" ++ "too vague", 9⟩] := by
  exact approve_reject_spawns_child
    { runs := [⟨1, "proj", "plan", "waiting_for_approval", none⟩],
      artifacts := [⟨1, "packet", "PACKET", 0⟩, ⟨1, "synthesis", "SYN", 1⟩],
      approvals := [] } 1 2 9 "too vague"
    ⟨1, "proj", "plan", "waiting_for_approval", none⟩ ⟨1, "packet", "PACKET", 0⟩
    rfl rfl (by decide) (by decide) rfl (by decide)

end MvpBuildkit
